import Mathlib

/-!
Verification of the repo-worker artifact registry (services/repo-worker).

The Python source is shallowly embedded: the S3 object store becomes an
association list from keys to byte lists, each async route handler becomes a
pure function from its inputs (store state, path parameters, query
parameters, request body) to a response value and a new state, and SHA-256
is implemented in full so that digests compute exactly as
`hashlib.sha256(content).hexdigest()` does.
-/

namespace RepoWorker

/-! ### Bytes and the object store

`app/storage/s3.py` stores byte bodies under string keys in one S3 bucket.
An S3 `put_object` atomically overwrites the key, and `get_object` returns
the latest body.  The bucket is modelled as an association list where the
most recent write for a key shadows older entries.
-/

/-- One S3 bucket: association list from object key to object body (bytes,
each a `Nat` in `[0, 256)`). -/
def Store := List (String × List Nat)

/-- The empty bucket. -/
def Store.empty : Store := []

/-- `get_object`: first (most recent) binding for the key wins. -/
def sget (st : Store) (k : String) : Option (List Nat) :=
  (st.find? (fun p => p.1 == k)).map (fun p => p.2)

/-- `put_object`: atomically (over)writes the key. -/
def sput (st : Store) (k : String) (v : List Nat) : Store :=
  (k, v) :: st

theorem sget_sput_same (st : Store) (k : String) (v : List Nat) :
    sget (sput st k v) k = some v := by
  simp [sget, sput, List.find?]

theorem sget_sput_ne (st : Store) (k k' : String) (v : List Nat) (h : k' ≠ k) :
    sget (sput st k v) k' = sget st k' := by
  have hb : (k == k') = false := by
    simp [beq_eq_false_iff_ne]
    exact Ne.symm h
  simp [sget, sput, List.find?, hb]

/-! ### SHA-256 (`hashlib.sha256`, FIPS 180-4)

Machine words are `Nat` reduced modulo `2 ^ 32` wherever 32-bit overflow
matters. -/

/-- Addition modulo `2 ^ 32`. -/
def add32 (a b : Nat) : Nat := (a + b) % 4294967296

/-- 32-bit complement of a word `< 2 ^ 32`. -/
def bnot32 (x : Nat) : Nat := 4294967295 - x

/-- Rotate a 32-bit word right by `n`. -/
def rotr (n x : Nat) : Nat :=
  (x >>> n) ||| ((x <<< (32 - n)) % 4294967296)

def shaCh (e f g : Nat) : Nat := (e &&& f) ^^^ (bnot32 e &&& g)

def shaMaj (a b c : Nat) : Nat := (a &&& b) ^^^ (a &&& c) ^^^ (b &&& c)

def bigSigma0 (x : Nat) : Nat := rotr 2 x ^^^ rotr 13 x ^^^ rotr 22 x

def bigSigma1 (x : Nat) : Nat := rotr 6 x ^^^ rotr 11 x ^^^ rotr 25 x

def smallSigma0 (x : Nat) : Nat := rotr 7 x ^^^ rotr 18 x ^^^ (x >>> 3)

def smallSigma1 (x : Nat) : Nat := rotr 17 x ^^^ rotr 19 x ^^^ (x >>> 10)

/-- The 64 SHA-256 round constants (FIPS 180-4 §4.2.2, in decimal). -/
def shaK : List Nat :=
  [1116352408, 1899447441, 3049323471, 3921009573,
   961987163, 1508970993, 2453635748, 2870763221,
   3624381080, 310598401, 607225278, 1426881987,
   1925078388, 2162078206, 2614888103, 3248222580,
   3835390401, 4022224774, 264347078, 604807628,
   770255983, 1249150122, 1555081692, 1996064986,
   2554220882, 2821834349, 2952996808, 3210313671,
   3336571891, 3584528711, 113926993, 338241895,
   666307205, 773529912, 1294757372, 1396182291,
   1695183700, 1986661051, 2177026350, 2456956037,
   2730485921, 2820302411, 3259730800, 3345764771,
   3516065817, 3600352804, 4094571909, 275423344,
   430227734, 506948616, 659060556, 883997877,
   958139571, 1322822218, 1537002063, 1747873779,
   1955562222, 2024104815, 2227730452, 2361852424,
   2428436474, 2756734187, 3204031479, 3329325298]

/-- The initial SHA-256 hash state (FIPS 180-4 §5.3.3, in decimal). -/
def shaH0 : List Nat :=
  [1779033703, 3144134277, 1013904242, 2773480762,
   1359893119, 2600822924, 528734635, 1541459225]

/-- Big-endian 8-byte encoding of the bit length. -/
def bigEndian8 (n : Nat) : List Nat :=
  [(n >>> 56) % 256, (n >>> 48) % 256, (n >>> 40) % 256, (n >>> 32) % 256,
   (n >>> 24) % 256, (n >>> 16) % 256, (n >>> 8) % 256, n % 256]

/-- FIPS 180-4 padding: `0x80`, zeros to 56 mod 64, then the 64-bit length. -/
def padMessage (msg : List Nat) : List Nat :=
  let z := (119 - (msg.length % 64)) % 64
  msg ++ [0x80] ++ List.replicate z 0 ++ bigEndian8 (msg.length * 8)

/-- Split a byte list into 64-byte blocks (fuelled so that it reduces by
kernel computation; the fuel bounds the number of blocks and never runs out
at the chosen value). -/
def chunks64F : Nat → List Nat → List (List Nat)
  | 0, _ => []
  | _, [] => []
  | fuel + 1, b :: rest => ((b :: rest).take 64) :: chunks64F fuel ((b :: rest).drop 64)

/-- Split the padded message into 64-byte blocks. -/
def chunks64 (l : List Nat) : List (List Nat) := chunks64F l.length l

/-- Big-endian 32-bit words from bytes. -/
def bytesToWords : List Nat → List Nat
  | b0 :: b1 :: b2 :: b3 :: rest =>
      ((b0 <<< 24) ||| (b1 <<< 16) ||| (b2 <<< 8) ||| b3) :: bytesToWords rest
  | _ => []

/-- Extend the 16 message words to the 64-entry message schedule. -/
def extendSchedule (w : Array Nat) : Array Nat :=
  (List.range 48).foldl
    (fun w i =>
      let t := i + 16
      w.push (add32 (add32 (smallSigma1 w[t-2]!) w[t-7]!)
                    (add32 (smallSigma0 w[t-15]!) w[t-16]!)))
    w

/-- One SHA-256 compression round over the 8-word working state. -/
def shaRound (ws : Array Nat)
    (st : Nat × Nat × Nat × Nat × Nat × Nat × Nat × Nat) (t : Nat) :
    Nat × Nat × Nat × Nat × Nat × Nat × Nat × Nat :=
  match st with
  | (a, b, c, d, e, f, g, h) =>
    let t1 := add32 h (add32 (bigSigma1 e)
                (add32 (shaCh e f g) (add32 shaK[t]! ws[t]!)))
    let t2 := add32 (bigSigma0 a) (shaMaj a b c)
    (add32 t1 t2, a, b, c, add32 d t1, e, f, g)

/-- Compress one 64-byte block into the running hash state. -/
def compressBlock (h : List Nat) (block : List Nat) : List Nat :=
  let ws := extendSchedule (Array.mk (bytesToWords block))
  match (List.range 64).foldl (shaRound ws)
      (h[0]!, h[1]!, h[2]!, h[3]!, h[4]!, h[5]!, h[6]!, h[7]!) with
  | (a, b, c, d, e, f, g, hh) =>
    [add32 h[0]! a, add32 h[1]! b, add32 h[2]! c, add32 h[3]! d,
     add32 h[4]! e, add32 h[5]! f, add32 h[6]! g, add32 h[7]! hh]

/-- SHA-256 of a byte list, as the eight 32-bit hash words. -/
def sha256Words (msg : List Nat) : List Nat :=
  (chunks64 (padMessage msg)).foldl compressBlock shaH0

/-- Lowercase hex digit for a nibble (always applied to values `< 16`):
code point 48 + n for digits, 87 + n for letters. -/
def hexDigit (n : Nat) : Char :=
  if n < 10 then Char.ofNat (48 + n) else Char.ofNat (87 + n)

/-- Eight lowercase hex characters of one 32-bit word. -/
def word32HexChars (w : Nat) : List Char :=
  [hexDigit ((w >>> 28) &&& 15), hexDigit ((w >>> 24) &&& 15),
   hexDigit ((w >>> 20) &&& 15), hexDigit ((w >>> 16) &&& 15),
   hexDigit ((w >>> 12) &&& 15), hexDigit ((w >>> 8) &&& 15),
   hexDigit ((w >>> 4) &&& 15), hexDigit (w &&& 15)]

/-- The 64 hex characters of `hashlib.sha256(msg).hexdigest()`. -/
def sha256HexChars (msg : List Nat) : List Char :=
  (sha256Words msg).foldr (fun w acc => word32HexChars w ++ acc) []

/-- `hashlib.sha256(msg).hexdigest()` as a string. -/
def sha256Hex (msg : List Nat) : String :=
  String.mk (sha256HexChars msg)

/-- `f"sha256:{hashlib.sha256(content).hexdigest()}"` — the canonical digest
string computed throughout `app/storage/s3.py`. -/
def sha256Digest (msg : List Nat) : String :=
  "sha256:" ++ sha256Hex msg

/-! ### Python string/bytes helpers

The storage layer serializes tag links with `digest.encode()` and reads them
back with `.decode().strip()`.  All values so stored are ASCII digest
strings, for which UTF-8 bytes coincide with code points, so encoding is
modelled as the code-point map; decoding rejects non-ASCII bytes (a real
`UnicodeDecodeError` would abort the request). -/

/-- `str.encode()` restricted to the ASCII strings stored here. -/
def encodeStr (s : String) : List Nat := s.data.map Char.toNat

/-- The ASCII whitespace stripped by Python `str.strip()`. -/
def isPySpace (c : Char) : Bool :=
  c == ' ' || c == '\t' || c == '\n' || c == '\x0d' || c == '\x0b' || c == '\x0c'

/-- `str.strip()` on the character list. -/
def pstripChars (l : List Char) : List Char :=
  ((l.dropWhile isPySpace).reverse.dropWhile isPySpace).reverse

/-- `bytes.decode().strip()` (ASCII fragment). -/
def pyDecodeStrip (bs : List Nat) : Option String :=
  if bs.all (fun b => b < 128) then
    some (String.mk (pstripChars (bs.map Char.ofNat)))
  else
    none

/-- Python `str.startswith(p)`. -/
def pyStartsWith (s p : String) : Bool := p.data.isPrefixOf s.data

/-- Python `str.endswith(p)`. -/
def pyEndsWith (s p : String) : Bool := p.data.isSuffixOf s.data

/-- Characters that appear in digest strings: ASCII and not whitespace. -/
def goodDigestChar (c : Char) : Bool := c.toNat < 128 && !isPySpace c

theorem hexDigit_good {n : Nat} (h : n < 16) :
    goodDigestChar (hexDigit n) = true := by
  interval_cases n <;> decide

theorem and15_lt_16 (x : Nat) : x &&& 15 < 16 :=
  Nat.lt_succ_of_le Nat.and_le_right

theorem word32HexChars_good (w : Nat) :
    ∀ c ∈ word32HexChars w, goodDigestChar c = true := by
  intro c hc
  simp only [word32HexChars, List.mem_cons, List.not_mem_nil, or_false] at hc
  rcases hc with h | h | h | h | h | h | h | h <;>
    (subst h; exact hexDigit_good (and15_lt_16 _))

theorem sha256HexChars_good (msg : List Nat) :
    ∀ c ∈ sha256HexChars msg, goodDigestChar c = true := by
  unfold sha256HexChars
  generalize sha256Words msg = ws
  induction ws with
  | nil => intro c hc; simp at hc
  | cons w rest ih =>
    intro c hc
    simp only [List.foldr_cons, List.mem_append] at hc
    rcases hc with h | h
    · exact word32HexChars_good w c h
    · exact ih c h

theorem sha256Digest_data (msg : List Nat) :
    (sha256Digest msg).data = "sha256:".data ++ sha256HexChars msg := by
  simp [sha256Digest, sha256Hex]

theorem sha256Digest_chars_good (msg : List Nat) :
    ∀ c ∈ (sha256Digest msg).data, goodDigestChar c = true := by
  intro c hc
  rw [sha256Digest_data] at hc
  rcases List.mem_append.mp hc with h | h
  · have hall : ∀ c ∈ "sha256:".data, goodDigestChar c = true := by decide
    exact hall c h
  · exact sha256HexChars_good msg c h

theorem dropWhile_eq_self_of_all {p : Char → Bool} {l : List Char}
    (h : ∀ c ∈ l, p c = false) : l.dropWhile p = l := by
  cases l with
  | nil => rfl
  | cons a t =>
    simp [List.dropWhile, h a (by simp)]

theorem pstripChars_eq_self {l : List Char}
    (h : ∀ c ∈ l, isPySpace c = false) : pstripChars l = l := by
  unfold pstripChars
  rw [dropWhile_eq_self_of_all h,
      dropWhile_eq_self_of_all (fun c hc => h c (List.mem_reverse.mp hc)),
      List.reverse_reverse]

theorem pyDecodeStrip_encodeStr {s : String}
    (h : ∀ c ∈ s.data, goodDigestChar c = true) :
    pyDecodeStrip (encodeStr s) = some s := by
  have hlt : ∀ c ∈ s.data, c.toNat < 128 := by
    intro c hc
    have := h c hc
    simp [goodDigestChar] at this
    exact this.1
  have hsp : ∀ c ∈ s.data, isPySpace c = false := by
    intro c hc
    have := h c hc
    simp [goodDigestChar] at this
    exact this.2
  unfold pyDecodeStrip encodeStr
  rw [if_pos]
  · have hmap : (s.data.map Char.toNat).map Char.ofNat = s.data := by
      rw [List.map_map]
      have : ∀ c ∈ s.data, (Char.ofNat ∘ Char.toNat) c = id c := by
        intro c _
        simp [Char.ofNat_toNat]
      rw [List.map_congr_left this, List.map_id]
    rw [hmap, pstripChars_eq_self hsp]
  · simp only [List.all_eq_true, List.mem_map, decide_eq_true_eq]
    rintro b ⟨c, hc, rfl⟩
    exact hlt c hc

theorem sha256Digest_decode (msg : List Nat) :
    pyDecodeStrip (encodeStr (sha256Digest msg)) = some (sha256Digest msg) :=
  pyDecodeStrip_encodeStr (sha256Digest_chars_good msg)

/-! ### Object-store adapter (`app/storage/s3.py`)

Each method opens an S3 client and issues get/put/head/delete calls on the
bucket; S3 transport errors other than 404 are outside the model (they
propagate as exceptions). -/

/-- `S3Storage._blob_key`: `blobs/<algo>/<first-2-hex>/<full-hex>` with the
algorithm split off at the first colon, defaulting to `sha256`. -/
def blobKey (digest : String) : String :=
  match digest.data.findIdx? (fun c => c == ':') with
  | some i =>
      let algo := String.mk (digest.data.take i)
      let hashValue := String.mk (digest.data.drop (i + 1))
      "blobs/" ++ algo ++ "/" ++ String.mk (hashValue.data.take 2) ++ "/" ++ hashValue
  | none =>
      "blobs/sha256/" ++ String.mk (digest.data.take 2) ++ "/" ++ digest

/-- Common prefix of every manifest key of a repository. -/
def manifestsRoot (name : String) : String :=
  "repositories/" ++ name ++ "/_manifests/"

/-- `S3Storage._tag_link_key`:
`repositories/<name>/_manifests/tags/<tag>/link`. -/
def tagLinkKey (name tag : String) : String :=
  manifestsRoot name ++ ("tags/" ++ (tag ++ "/link"))

/-- The manifest content key `repositories/<name>/_manifests/revisions/<digest>/content`
used by `get_manifest`/`put_manifest`/`delete_manifest`. -/
def revisionContentKey (name digest : String) : String :=
  manifestsRoot name ++ ("revisions/" ++ (digest ++ "/content"))

/-- `S3Storage.blob_exists` / presence of the blob object. -/
def blob_exists (st : Store) (digest : String) : Bool :=
  (sget st (blobKey digest)).isSome

/-- `S3Storage.get_blob`. -/
def get_blob (st : Store) (digest : String) : Option (List Nat) :=
  sget st (blobKey digest)

/-- `S3Storage.put_blob`: verifies the declared digest against the SHA-256 of
the content BEFORE any write; on mismatch it raises `ValueError` (modelled as
`Except.error`) and the store is untouched. -/
def put_blob (st : Store) (digest : String) (content : List Nat) :
    Except String Store :=
  let computed := sha256Digest content
  if digest ≠ computed then
    Except.error ("Digest mismatch: expected " ++ digest ++ ", got " ++ computed)
  else
    Except.ok (sput st (blobKey digest) content)

/-- Tag-link resolution step of `S3Storage.get_manifest`: read the link
object and `.decode().strip()` its body into a digest string; `None` when
the link object is missing (404). -/
def readTagLink (st : Store) (name reference : String) : Option String :=
  match sget st (tagLinkKey name reference) with
  | none => none
  | some linkBytes => pyDecodeStrip linkBytes

/-- Content read step of `S3Storage.get_manifest`: read the revision content
object for a resolved digest; `None` when missing (404). -/
def readRevision (st : Store) (name digest : String) :
    Option (List Nat × String) :=
  match sget st (revisionContentKey name digest) with
  | none => none
  | some content => some (content, digest)

/-- `S3Storage.get_manifest`: a tag reference is resolved through the
tag-link object, then the revision content object is read. -/
def get_manifest (st : Store) (name reference : String) :
    Option (List Nat × String) :=
  if ¬ pyStartsWith reference "sha256:" then
    match readTagLink st name reference with
    | none => none
    | some digest => readRevision st name digest
  else
    readRevision st name reference

/-- `S3Storage.put_manifest`: stores the content under its computed digest,
then (for a tag reference) writes the tag-link object whose body is the
digest string.  Returns the digest. -/
def put_manifest (st : Store) (name reference : String) (content : List Nat) :
    Store × String :=
  let digest := sha256Digest content
  let st1 := sput st (revisionContentKey name digest) content
  let st2 :=
    if ¬ pyStartsWith reference "sha256:" then
      sput st1 (tagLinkKey name reference) (encodeStr digest)
    else st1
  (st2, digest)

/-- `S3Storage._chart_key`: `charts/<name>/<name>-<version>.tgz`. -/
def chartKey (name version : String) : String :=
  "charts/" ++ name ++ "/" ++ name ++ "-" ++ version ++ ".tgz"

/-- `S3Storage.get_chart`. -/
def get_chart (st : Store) (name version : String) : Option (List Nat) :=
  sget st (chartKey name version)

/-- `S3Storage.put_chart`. -/
def put_chart (st : Store) (name version : String) (content : List Nat) : Store :=
  sput st (chartKey name version) content

/-- Cache-metadata document key `cache/<upstream>/<image>/<tag>/meta.json`. -/
def cacheMetaKey (upstream name tag : String) : String :=
  "cache/" ++ upstream ++ "/" ++ name ++ "/" ++ tag ++ "/meta.json"

/-- The cache-metadata document body
(`{digest, mutable, last_check, last_updated}`). -/
structure CacheMeta where
  digest : String
  mutableFlag : Bool
  lastCheck : Nat
  lastUpdated : Nat
deriving Repr, DecidableEq

/-- `json.dumps(meta).encode()` for the cache-metadata document.  The exact
JSON rendering is stdlib behaviour; a fixed faithful rendering is used. -/
def encodeMeta (m : CacheMeta) : List Nat :=
  encodeStr ("\x7b\"digest\": \"" ++ m.digest ++ "\", \"mutable\": "
    ++ (if m.mutableFlag then "true" else "false")
    ++ ", \"last_check\": " ++ toString m.lastCheck
    ++ ", \"last_updated\": " ++ toString m.lastUpdated ++ "\x7d")

/-- `S3Storage.put_cache_meta`. -/
def put_cache_meta (st : Store) (upstream name tag : String) (m : CacheMeta) :
    Store :=
  sput st (cacheMetaKey upstream name tag) (encodeMeta m)

/-! ### Configuration (`app/config.py`) and tag classification -/

/-- The default `CacheConfig.mutable_tag_patterns`. -/
def defaultMutableTagPatterns : List String := ["latest", "*nightly*"]

/-- Scan a glob character class for its closing bracket; the first character
(already consumed by the caller, even a literal `]`) is in the accumulator. -/
def clsScan : List Char → List Char → Option (List Char × List Char)
  | [], _ => none
  | ']' :: r, acc => some (acc.reverse, r)
  | c :: r, acc => clsScan r (c :: acc)

/-- Parse the body of a glob character class after `[`: optional `!`
negation, a first literal character (possibly `]`), then characters up to
the closing `]`.  `none` when unterminated (the `[` is then literal). -/
def splitCls : List Char → Option (Bool × List Char × List Char)
  | [] => none
  | '!' :: c0 :: rest => (clsScan rest [c0]).map (fun p => (true, p.1, p.2))
  | '!' :: [] => none
  | c0 :: rest => (clsScan rest [c0]).map (fun p => (false, p.1, p.2))

/-- Character-class membership with `a-b` ranges (code-point order). -/
def memCls : List Char → Char → Bool
  | a :: '-' :: b :: rest, c =>
      (decide (a ≤ c) && decide (c ≤ b)) || memCls rest c
  | a :: rest, c => (a == c) || memCls rest c
  | [], _ => false

/-- Fuelled glob matcher: `fnmatch` pattern against a name, anchored at both
ends, with `*`, `?`, `[...]`/`[!...]`.  The fuel strictly exceeds the
maximum recursion depth, so it never runs out at the chosen value. -/
def matchGlobF : Nat → List Char → List Char → Bool
  | 0, _, _ => false
  | _ + 1, [], s => s.isEmpty
  | fuel + 1, '*' :: ps, s =>
      matchGlobF fuel ps s ||
        (match s with
         | [] => false
         | _ :: s' => matchGlobF fuel ('*' :: ps) s')
  | fuel + 1, '?' :: ps, s =>
      (match s with
       | [] => false
       | _ :: s' => matchGlobF fuel ps s')
  | fuel + 1, '[' :: ps, s =>
      (match splitCls ps with
       | some (neg, cls, rest) =>
           match s with
           | [] => false
           | c :: s' => (memCls cls c != neg) && matchGlobF fuel rest s'
       | none =>
           match s with
           | c :: s' => (c == '[') && matchGlobF fuel ps s'
           | [] => false)
  | fuel + 1, c :: ps, s =>
      (match s with
       | c' :: s' => (c == c') && matchGlobF fuel ps s'
       | [] => false)

/-- `fnmatch.fnmatch(name, pattern)` as it behaves on POSIX, where
`os.path.normcase` is the identity, so matching is case-sensitive
(equivalently `fnmatch.fnmatchcase`). -/
def fnmatch (name pat : String) : Bool :=
  matchGlobF (pat.data.length + name.data.length + 1) pat.data name.data

/-- `Config.is_mutable_tag`: first match wins, `False` when no pattern
matches. -/
def is_mutable_tag (patterns : List String) (tag : String) : Bool :=
  match patterns with
  | [] => false
  | p :: rest => if fnmatch tag p then true else is_mutable_tag rest tag

/-- `AuthConfig`. -/
structure AuthConfig where
  enabled : Bool
  anonymousPull : Bool
  jwtSecretKey : String
deriving Repr, DecidableEq

/-- The slice of `Config` the embedded routes read. -/
structure Config where
  auth : AuthConfig
  mutableTagPatterns : List String
deriving Repr, DecidableEq

/-- `ProxyHandler._upstream_clients` keys after startup: the built-in
upstream registries of `Config._get_builtin_upstreams`. -/
def builtinUpstreamNames : List String := ["dockerhub", "ghcr", "quay", "gcr"]

/-! ### HTTP response model -/

/-- The observable parts of a Quart `Response`: status, headers, body.
The `Content-Type` of manifest responses (derived by a stdlib JSON parse of
the body) is not modelled; no claim depends on it. -/
structure HttpResponse where
  status : Nat
  headers : List (String × String)
  body : List Nat
deriving Repr, DecidableEq

/-! ### Token validation (`app/auth/jwt.py`, `app/auth/middleware.py`)

`jwt.decode` (the PyJWT library) and `base64.b64decode` are stdlib/library
calls, passed in as opaque functions; everything else is embedded. -/

/-- Decoded JWT payload. -/
structure TokenPayload where
  userId : Int
  email : String
  roles : List String
  exp : Nat
  iat : Nat

/-- Python `str.split()`: split on whitespace runs, dropping empty pieces. -/
def pySplitWs (s : String) : List String :=
  (s.split (fun c => isPySpace c)).filter (fun piece => piece ≠ "")

/-- `extract_token_from_header`.  `basicDecode` stands for
`base64.b64decode(token).decode("utf-8")` followed by taking the part after
the first colon (`None` on decode failure or missing colon). -/
def extract_token_from_header (basicDecode : String → Option String)
    (authHeader : String) : Option String :=
  if authHeader = "" then none
  else
    match pySplitWs authHeader with
    | [scheme, token] =>
        if scheme.toLower = "bearer" then some token
        else if scheme.toLower = "basic" then basicDecode token
        else none
    | _ => none

/-- `_unauthorized_response`. -/
def unauthorizedResponse (message : String) : HttpResponse :=
  { status := 401,
    headers := [("WWW-Authenticate",
      "Bearer realm=\"repo-worker\",service=\"repo-worker\"")],
    body := encodeStr message }

/-- Outcome of the `auth_required` decorator: run the wrapped handler, or
short-circuit with a 401 response. -/
inductive AuthGate where
  | proceed
  | reject (resp : HttpResponse)
deriving DecidableEq

/-- `auth_required(require_push)` around a handler, for a request with the
given method and `Authorization` header value (`""` when absent).
`decodeTok` stands for `decode_token(token, cfg.auth.jwt_secret_key)`.
The `config is None` escape hatch never fires once the app is wired. -/
def auth_required (requirePush : Bool) (cfg : Config) (method : String)
    (authHeader : String) (basicDecode : String → Option String)
    (decodeTok : String → Option TokenPayload) : AuthGate :=
  if ¬ cfg.auth.enabled then .proceed
  else
    let isWrite := method = "POST" ∨ method = "PUT" ∨ method = "PATCH" ∨ method = "DELETE"
    if ¬ isWrite ∧ cfg.auth.anonymousPull ∧ ¬ requirePush then .proceed
    else
      match extract_token_from_header basicDecode authHeader with
      | none => .reject (unauthorizedResponse "No valid authentication token provided")
      | some token =>
        match decodeTok token with
        | none => .reject (unauthorizedResponse "Invalid or expired token")
        | some _ => .proceed

/-! ### Registry routes (`app/registry/routes.py`)

The registry blueprint is registered bare in `create_app`
(`app.register_blueprint(registry_bp)`); none of its route handlers carries
an `auth_required` decorator, so they run for every request regardless of
the configuration or `Authorization` header. -/

/-- One `_upload_sessions` entry. -/
structure UploadSession where
  name : String
  chunks : List (List Nat)
  offset : Nat
deriving Repr, DecidableEq

/-- The `_upload_sessions` dict. -/
def Sessions := List (String × UploadSession)

def sessionsGet (ss : Sessions) (k : String) : Option UploadSession :=
  (ss.find? (fun p => p.1 == k)).map (fun p => p.2)

def sessionsInsert (ss : Sessions) (k : String) (v : UploadSession) : Sessions :=
  (k, v) :: ss

def sessionsDelete (ss : Sessions) (k : String) : Sessions :=
  ss.filter (fun p => p.1 != k)

/-- Python truthiness of an optional query-string value. -/
def pyTruthyStr : Option String → Bool
  | none => false
  | some s => s ≠ ""

/-- `initiate_blob_upload` (`POST /v2/<name>/blobs/uploads/`): with a truthy
`?digest=` AND a non-empty body it is a monolithic upload; otherwise
(including a digest with an empty body, which falls through) it creates a
chunked-upload session.  `newUuid` stands for `str(uuid.uuid4())`. -/
def initiate_blob_upload (ss : Sessions) (st : Store) (name : String)
    (digestParam : Option String) (body : List Nat) (newUuid : String) :
    Sessions × Store × HttpResponse :=
  let createSession : Sessions × Store × HttpResponse :=
    (sessionsInsert ss newUuid { name := name, chunks := [], offset := 0 },
     st,
     { status := 202,
       headers := [("Location", "/v2/" ++ name ++ "/blobs/uploads/" ++ newUuid),
                   ("Range", "0-0"),
                   ("Docker-Upload-UUID", newUuid)],
       body := [] })
  match digestParam with
  | some digest =>
      if digest ≠ "" ∧ body ≠ [] then
        match put_blob st digest body with
        | .ok st' =>
            (ss, st',
             { status := 201,
               headers := [("Location", "/v2/" ++ name ++ "/blobs/" ++ digest),
                           ("Docker-Content-Digest", digest),
                           ("Content-Length", "0")],
               body := [] })
        | .error e => (ss, st, { status := 400, headers := [], body := encodeStr e })
      else createSession
  | none => createSession

/-- `complete_blob_upload` (`PUT /v2/<name>/blobs/uploads/<uuid>?digest=`). -/
def complete_blob_upload (ss : Sessions) (st : Store) (name uploadId : String)
    (digestParam : Option String) (finalChunk : List Nat) :
    Sessions × Store × HttpResponse :=
  if ¬ pyTruthyStr digestParam then
    (ss, st, { status := 400, headers := [], body := encodeStr "digest parameter required" })
  else
    let digest := digestParam.getD ""
    match sessionsGet ss uploadId with
    | none => (ss, st, { status := 404, headers := [], body := [] })
    | some session =>
      let chunks :=
        if finalChunk ≠ [] then session.chunks ++ [finalChunk] else session.chunks
      let content := chunks.foldr (fun c acc => c ++ acc) []
      match put_blob st digest content with
      | .error e =>
          (sessionsDelete ss uploadId, st,
           { status := 400, headers := [], body := encodeStr e })
      | .ok st' =>
          (sessionsDelete ss uploadId, st',
           { status := 201,
             headers := [("Location", "/v2/" ++ name ++ "/blobs/" ++ digest),
                         ("Docker-Content-Digest", digest),
                         ("Content-Length", "0")],
             body := [] })

/-- `get_manifest` route (`GET /v2/<name>/manifests/<reference>`): a direct
lookup of the literal `name` in the local store — the handler never touches
`ProxyHandler` or `CacheManager`. -/
def registry_get_manifest (st : Store) (name reference : String) : HttpResponse :=
  match get_manifest st name reference with
  | none => { status := 404, headers := [], body := [] }
  | some (content, digest) =>
      { status := 200,
        headers := [("Content-Length", toString content.length),
                    ("Docker-Content-Digest", digest)],
        body := content }

/-- `put_manifest` route (`PUT /v2/<name>/manifests/<reference>`). -/
def registry_put_manifest (st : Store) (name reference : String)
    (body : List Nat) : Store × HttpResponse :=
  if body = [] then
    (st, { status := 400, headers := [], body := encodeStr "empty manifest" })
  else
    let put := put_manifest st name reference body
    (put.1,
     { status := 201,
       headers := [("Location", "/v2/" ++ name ++ "/manifests/" ++ put.2),
                   ("Docker-Content-Digest", put.2),
                   ("Content-Length", "0")],
       body := [] })

/-- The full request handling of `PUT /v2/<name>/manifests/<reference>`:
the registry blueprint has no auth decorator, so the configuration and the
`Authorization` header are never consulted. -/
def registry_put_manifest_request (_cfg : Config) (_authHeader : String)
    (st : Store) (name reference : String) (body : List Nat) :
    Store × HttpResponse :=
  registry_put_manifest st name reference body

/-- Python `lst[:n]` for an `int` slice bound. -/
def pySliceTo (l : List String) (n : Int) : List String :=
  if 0 ≤ n then l.take n.toNat
  else l.take (l.length - min l.length n.natAbs)

/-- `catalog` route (`GET /v2/_catalog`): `repos` is the sorted
`list_repositories()` result; `n` is `request.args.get("n", type=int)`;
`last` is `request.args.get("last")`.  Note `if n:` / `if last:` are Python
truthiness tests. -/
def catalog (repos : List String) (n : Option Int) (last : Option String) :
    Nat × List String :=
  let repos1 :=
    if pyTruthyStr last then
      match repos.indexOf? (last.getD "") with
      | some i => repos.drop (i + 1)
      | none => repos
    else repos
  let repos2 :=
    match n with
    | some v => if v ≠ 0 then pySliceTo repos1 v else repos1
    | none => repos1
  (200, repos2)

/-! ### Pull-through proxy (`app/proxy/proxy.py`, `app/proxy/cache.py`)

`UpstreamRegistry.get_manifest` (`app/proxy/upstream.py`) performs HTTP
against the upstream and, on 200, returns the raw body together with the
`Docker-Content-Digest` RESPONSE HEADER value (default `""`) — it computes
no hash of its own.  The upstream's answer is therefore a free input of the
proxy model. -/

/-- `ManifestResult` from `app/proxy/upstream.py`: body bytes, the
`Docker-Content-Digest` header value, and the content type. -/
structure ManifestResult where
  content : List Nat
  digest : String
  contentType : String
deriving Repr, DecidableEq

/-- `ProxyHandler.parse_proxy_request`: split the repository name at the
first `/`; a known-upstream first component is a proxy request; a bare name
or `library/...` defaults to Docker Hub; anything else is local. -/
def parse_proxy_request (upstreamNames : List String) (name : String) :
    Option (String × String) :=
  match name.data.findIdx? (fun c => c == '/') with
  | some i =>
      let first := String.mk (name.data.take i)
      let rest := String.mk (name.data.drop (i + 1))
      if first ∈ upstreamNames then some (first, rest)
      else if first = "library" then some ("dockerhub", name)
      else none
  | none => some ("dockerhub", "library/" ++ name)

/-- `CacheManager.get_cached_manifest`: cached proxied manifests live under
the synthetic repository `_proxy/<upstream>/<image>`. -/
def get_cached_manifest (st : Store) (upstream name tag : String) :
    Option (List Nat × String) :=
  get_manifest st ("_proxy/" ++ upstream ++ "/" ++ name) tag

/-- `CacheManager.put_cached_manifest`: store the manifest under the
`_proxy` repository, then write the cache-metadata document.  `now` stands
for `time.time()`. -/
def put_cached_manifest (patterns : List String) (now : Nat) (st : Store)
    (upstream name tag : String) (content : List Nat) (digest : String) :
    Store :=
  let st1 := (put_manifest st ("_proxy/" ++ upstream ++ "/" ++ name) tag content).1
  put_cache_meta st1 upstream name tag
    { digest := digest,
      mutableFlag := is_mutable_tag patterns tag,
      lastCheck := now,
      lastUpdated := now }

/-- The digest branch (`reference.startswith("sha256:")`) of
`ProxyHandler.get_manifest`: on cache hit return it; on miss return and
cache whatever the upstream answered — the requested digest is never
recomputed or compared against the fetched content.  `upstreamResp` is the
result of `upstream.get_manifest(image_name, reference)`. -/
def proxy_get_manifest_digest (patterns : List String) (now : Nat)
    (upstreamResp : Option ManifestResult) (st : Store)
    (upstream image reference : String) : Store × Option (List Nat × String) :=
  match get_cached_manifest st upstream image reference with
  | some cached => (st, some cached)
  | none =>
    match upstreamResp with
    | some res =>
        (put_cached_manifest patterns now st upstream image reference
           res.content res.digest,
         some (res.content, res.digest))
    | none => (st, none)

/-! ### Single-flight revalidation (`app/proxy/cache.py`)

`CacheManager` keeps `_revalidation_tasks : dict[str, asyncio.Task]`.  The
event loop interleaves tasks only at `await` points; neither the
check-and-insert in `start_revalidation` nor the `finally`-cleanup-and-
return at the end of `_revalidate_wrapper` contains an `await`, so each is
one atomic step.  States record every task ever created (with its done
flag) plus the in-flight map from cache key to task id. -/

structure SFTask where
  id : Nat
  key : String
  done : Bool
deriving Repr, DecidableEq

structure SFState where
  tasks : List SFTask
  inflight : List (String × Nat)
  nextId : Nat
deriving Repr, DecidableEq

def sfInit : SFState := { tasks := [], inflight := [], nextId := 0 }

def sfLookup (m : List (String × Nat)) (k : String) : Option Nat :=
  (m.find? (fun p => p.1 == k)).map (fun p => p.2)

def sfErase (m : List (String × Nat)) (k : String) : List (String × Nat) :=
  m.filter (fun p => p.1 != k)

def sfSet (m : List (String × Nat)) (k : String) (v : Nat) :
    List (String × Nat) :=
  (k, v) :: sfErase m k

def taskFind (ts : List SFTask) (tid : Nat) : Option SFTask :=
  ts.find? (fun t => t.id == tid)

/-- `CacheManager.is_revalidating`:
`task is not None and not task.done()`. -/
def is_revalidating (st : SFState) (key : String) : Bool :=
  match sfLookup st.inflight key with
  | some tid =>
      match taskFind st.tasks tid with
      | some t => ! t.done
      | none => false
  | none => false

/-- `CacheManager.start_revalidation`: re-checks `is_revalidating`, then
creates the task (`asyncio.create_task`) and stores its handle in the map
before yielding to the scheduler. -/
def start_revalidation (st : SFState) (key : String) : SFState :=
  if is_revalidating st key then st
  else
    { tasks := st.tasks ++ [{ id := st.nextId, key := key, done := false }],
      inflight := sfSet st.inflight key st.nextId,
      nextId := st.nextId + 1 }

/-- The call site in `ProxyHandler.get_manifest`:
`if not is_revalidating(...): start_revalidation(...)`. -/
def handle_request (st : SFState) (key : String) : SFState :=
  if is_revalidating st key then st else start_revalidation st key

/-- The state update of a finishing task: its map entry (keyed by the
task's own cache key) is deleted and the task is marked done. -/
def sfMarkDone (st : SFState) (tid : Nat) (key : String) : SFState :=
  { tasks := st.tasks.map
      (fun u => if u.id == tid then { u with done := true } else u),
    inflight := sfErase st.inflight key,
    nextId := st.nextId }

/-- Task completion: the tail of `CacheManager._revalidate_wrapper`.  The
wrapped coroutine has finished (normally or with a caught exception); the
`finally` block deletes the map entry for the task's key, and the coroutine
returns, marking the `asyncio.Task` done.  No `await` separates these, so
the whole step is atomic. -/
def complete_task (st : SFState) (tid : Nat) : SFState :=
  match taskFind st.tasks tid with
  | some t => if t.done then st else sfMarkDone st tid t.key
  | none => st

/-- Events of the revalidation subsystem: a proxied tag request that wants a
refresh, or the completion of a running task. -/
inductive SFStep : SFState → SFState → Prop where
  | request (st : SFState) (key : String) : SFStep st (handle_request st key)
  | complete (st : SFState) (tid : Nat) : SFStep st (complete_task st tid)

/-- States reachable from startup (empty map, no tasks). -/
inductive SFReachable : SFState → Prop where
  | init : SFReachable sfInit
  | step {s s' : SFState} : SFReachable s → SFStep s s' → SFReachable s'

/-- Number of live (created, not yet completed) revalidation tasks for one
(upstream, image, tag) cache key. -/
def inFlightCount (st : SFState) (key : String) : Nat :=
  (st.tasks.filter (fun t => t.key == key && ! t.done)).length

/-! ### Helm routes (`app/helm/routes.py`)

`_extract_chart_metadata` opens the tarball with `tarfile`/`yaml` (stdlib);
it is passed in as an opaque function `metaOf`. -/

/-- The `name`/`version` fields of a parsed `Chart.yaml` (each possibly
missing). -/
structure ChartMeta where
  name : Option String
  version : Option String
deriving Repr, DecidableEq

/-- Python truthiness of an optional metadata field. -/
def pyTruthyField : Option String → Bool
  | none => false
  | some s => s ≠ ""

/-- `upload_chart` (`POST /api/v1/charts`) behind
`@auth_required(require_push=True)`.  `metaOf` stands for
`_extract_chart_metadata`. -/
def upload_chart (metaOf : List Nat → Option ChartMeta) (cfg : Config)
    (authHeader : String) (basicDecode : String → Option String)
    (decodeTok : String → Option TokenPayload) (st : Store)
    (content : List Nat) : Store × HttpResponse :=
  match auth_required true cfg "POST" authHeader basicDecode decodeTok with
  | .reject resp => (st, resp)
  | .proceed =>
    match metaOf content with
    | none =>
        (st, { status := 400, headers := [],
               body := encodeStr "Invalid chart: could not extract metadata" })
    | some meta =>
        if ¬ (pyTruthyField meta.name ∧ pyTruthyField meta.version) then
          (st, { status := 400, headers := [],
                 body := encodeStr "Invalid chart: missing name or version" })
        else
          let chartName := meta.name.getD ""
          let version := meta.version.getD ""
          (put_chart st chartName version content,
           { status := 201, headers := [],
             body := encodeStr ("\x7b\"saved\": true, \"name\": \"" ++ chartName
               ++ "\", \"version\": \"" ++ version ++ "\"\x7d") })

/-- Python `name_version.rsplit("-", 1)` when it yields two parts: split at
the LAST occurrence of the separator; `none` when the separator is absent
(`len(parts) != 2`). -/
def rsplitOnce (l : List Char) (sep : Char) : Option (List Char × List Char) :=
  match l.reverse.findIdx? (fun c => c == sep) with
  | none => none
  | some j =>
      let pos := l.length - 1 - j
      some (l.take pos, l.drop (pos + 1))

/-- `download_chart` (`GET /charts/<filename>`): parse
`{name}-{version}.tgz` by splitting at the last hyphen, then fetch
`charts/{name}/{name}-{version}.tgz`. -/
def download_chart (st : Store) (filename : String) : HttpResponse :=
  if ¬ pyEndsWith filename ".tgz" then
    { status := 400, headers := [], body := encodeStr "Invalid chart filename" }
  else
    let nameVersion := filename.data.take (filename.data.length - 4)
    match rsplitOnce nameVersion '-' with
    | none =>
        { status := 400, headers := [],
          body := encodeStr "Invalid chart filename format" }
    | some (namePart, versionPart) =>
        match get_chart st (String.mk namePart) (String.mk versionPart) with
        | none => { status := 404, headers := [], body := [] }
        | some content =>
            { status := 200,
              headers := [("Content-Disposition",
                            "attachment; filename=\"" ++ filename ++ "\""),
                          ("Content-Length", toString content.length)],
              body := content }

/-! ## General helper lemmas -/

set_option maxRecDepth 1000000

theorem string_mk_data (s : String) : String.mk s.data = s := by
  cases s
  rfl

theorem isPrefixOf_append_self (l t : List Char) :
    l.isPrefixOf (l ++ t) = true := by
  induction l with
  | nil => simp [List.isPrefixOf]
  | cons a rest ih => simp [List.isPrefixOf, ih]

theorem string_ne_of_data_ne {a b : String} (h : a.data ≠ b.data) : a ≠ b := by
  intro he
  exact h (congrArg String.data he)

/-! ## C10 — monolithic-upload digest with an empty body is ignored -/

/-- C10: a `POST /v2/<name>/blobs/uploads/` carrying a (truthy) `?digest=`
parameter but an empty request body writes no blob and performs no digest
verification: the store is unchanged, a chunked upload session is created,
and the answer is 202 with `Location`, `Range: 0-0` and
`Docker-Upload-UUID` headers. -/
theorem initiate_upload_digest_empty_body
    (ss : Sessions) (st : Store) (name d uuid : String) (hd : d ≠ "") :
    initiate_blob_upload ss st name (some d) [] uuid =
      (sessionsInsert ss uuid { name := name, chunks := [], offset := 0 }, st,
       { status := 202,
         headers := [("Location", "/v2/" ++ name ++ "/blobs/uploads/" ++ uuid),
                     ("Range", "0-0"),
                     ("Docker-Upload-UUID", uuid)],
         body := [] }) := by
  simp [initiate_blob_upload, hd]

/-- C10 witness: concrete run of the session-creating fall-through. -/
theorem initiate_upload_digest_empty_body_app :
    initiate_blob_upload [] Store.empty "library/nginx"
        (some "sha256:0000000000000000000000000000000000000000000000000000000000000000")
        [] "6f71e0a0-0000-4000-8000-000000000000" =
      (sessionsInsert [] "6f71e0a0-0000-4000-8000-000000000000"
         { name := "library/nginx", chunks := [], offset := 0 }, Store.empty,
       { status := 202,
         headers := [("Location",
            "/v2/library/nginx/blobs/uploads/6f71e0a0-0000-4000-8000-000000000000"),
           ("Range", "0-0"),
           ("Docker-Upload-UUID", "6f71e0a0-0000-4000-8000-000000000000")],
         body := [] }) :=
  initiate_upload_digest_empty_body [] Store.empty "library/nginx"
    "sha256:0000000000000000000000000000000000000000000000000000000000000000"
    "6f71e0a0-0000-4000-8000-000000000000" (by decide)

/-! ## C9 — `GET /v2/_catalog?n=0` -/

/-- C9 counterexample: with repositories present, `?n=0` does NOT yield an
empty `repositories` array — the full list comes back (the `if n:`
truthiness test skips the cap for `n = 0`). -/
theorem catalog_n_zero_full_list :
    catalog ["app/a", "app/b"] (some 0) none = (200, ["app/a", "app/b"]) ∧
    ["app/a", "app/b"] ≠ ([] : List String) := by
  constructor
  · rfl
  · decide

/-- C9 amended: `?n=0` is ignored by the Python truthiness test `if n:`, so
the response is 200 with exactly the repository list that an `n`-less
request returns (the full list) — still not an error. -/
theorem catalog_n_zero_eq_no_n (repos : List String) (last : Option String) :
    catalog repos (some 0) last = (200, (catalog repos none last).2) := by
  simp [catalog]

/-! ## C7 — mutable-tag classification -/

/-- C7 counterexample: with the default patterns, tag `LATEST` is NOT
classified as mutable although the claim's case-insensitive reading
requires it (`fnmatch` case-normalizes via `os.path.normcase`, the identity
on the POSIX systems this service runs on), while `latest` is. -/
theorem is_mutable_tag_case_sensitive :
    is_mutable_tag defaultMutableTagPatterns "LATEST" = false ∧
    is_mutable_tag defaultMutableTagPatterns "latest" = true ∧
    is_mutable_tag defaultMutableTagPatterns "1.0-nightly-build" = true := by
  refine ⟨by decide, by decide, by decide⟩

/-- C7 amended: `Config.is_mutable_tag` classifies `t` as mutable iff `t`
matches at least one configured glob pattern, with CASE-SENSITIVE matching
(POSIX `fnmatch`). -/
theorem is_mutable_tag_iff_exists (P : List String) (t : String) :
    is_mutable_tag P t = true ↔ ∃ p ∈ P, fnmatch t p = true := by
  induction P with
  | nil => simp [is_mutable_tag]
  | cons p rest ih =>
    by_cases h : fnmatch t p = true
    · simp [is_mutable_tag, h]
    · have hstep : is_mutable_tag (p :: rest) t = is_mutable_tag rest t := by
        simp [is_mutable_tag, h]
      rw [hstep, ih]
      constructor
      · rintro ⟨q, hq, hm⟩
        exact ⟨q, List.mem_cons_of_mem _ hq, hm⟩
      · rintro ⟨q, hq, hm⟩
        rcases List.mem_cons.mp hq with rfl | hq'
        · exact absurd hm h
        · exact ⟨q, hq', hm⟩

/-! ## C5 — failed blob upload writes nothing -/

/-- C5: when `PUT /v2/<name>/blobs/uploads/<uuid>?digest=<d>` (with a truthy
digest) fails with status 400 — which, given a truthy digest, only the
`put_blob` digest-mismatch `ValueError` produces — the store is completely
unchanged: `BlobExists(d)` is exactly what it was before, in particular
still false for a fresh `d`, and the upload session is discarded. -/
theorem complete_upload_mismatch_preserves_store
    (ss : Sessions) (st : Store) (name uploadId d : String)
    (finalChunk : List Nat) (out : Sessions × Store × HttpResponse)
    (hd : d ≠ "")
    (hrun : complete_blob_upload ss st name uploadId (some d) finalChunk = out)
    (hstatus : out.2.2.status = 400) :
    out.2.1 = st ∧
    blob_exists out.2.1 d = blob_exists st d ∧
    (blob_exists st d = false → blob_exists out.2.1 d = false) ∧
    out.1 = sessionsDelete ss uploadId := by
  unfold complete_blob_upload at hrun
  simp only [pyTruthyStr, hd, ne_eq, not_false_eq_true, ite_false, if_neg,
    not_true_eq_false, decide_not] at hrun
  rw [if_neg (by simp [hd])] at hrun
  split at hrun
  · -- session not found: status 404, contradiction
    rw [← hrun] at hstatus
    simp at hstatus
  · -- session found
    split at hrun
    · -- put_blob failed with ValueError
      rw [← hrun]
      refine ⟨rfl, rfl, fun h => h, rfl⟩
    · -- put_blob succeeded: status 201, contradiction
      rw [← hrun] at hstatus
      simp at hstatus

/-- Concrete session table for the C5 witness. -/
def ssMismatch : Sessions :=
  [("u1", { name := "myrepo", chunks := [[0x61]], offset := 1 })]

/-- A declared digest that does not match the uploaded byte `0x61`. -/
def dMismatch : String :=
  "sha256:0000000000000000000000000000000000000000000000000000000000000000"

/-- C5 witness: concrete mismatching upload; the 400 branch is hit and the
(empty) store stays empty. -/
theorem complete_upload_mismatch_preserves_store_app :
    (complete_blob_upload ssMismatch Store.empty "myrepo" "u1" (some dMismatch) []).2.1
        = Store.empty ∧
    blob_exists (complete_blob_upload ssMismatch Store.empty "myrepo" "u1"
        (some dMismatch) []).2.1 dMismatch = blob_exists Store.empty dMismatch ∧
    (blob_exists Store.empty dMismatch = false →
      blob_exists (complete_blob_upload ssMismatch Store.empty "myrepo" "u1"
          (some dMismatch) []).2.1 dMismatch = false) ∧
    (complete_blob_upload ssMismatch Store.empty "myrepo" "u1"
        (some dMismatch) []).1 = sessionsDelete ssMismatch "u1" :=
  complete_upload_mismatch_preserves_store ssMismatch Store.empty "myrepo" "u1"
    dMismatch [] _ (by decide) rfl (by decide)

/-! ## C3 — tag-link consistency -/

theorem tagLinkKey_ne_revisionContentKey (name tag d : String) :
    tagLinkKey name tag ≠ revisionContentKey name d := by
  intro h
  have hdata := congrArg String.data h
  simp only [tagLinkKey, revisionContentKey, String.data_append] at hdata
  have h2 := List.append_cancel_left hdata
  have hL : ("tags/".data ++ (tag.data ++ ("/link").data)).head? = some 't' := rfl
  have hR : ("revisions/".data ++ (d.data ++ ("/content").data)).head? = some 'r' := rfl
  have : some 't' = some 'r' := by rw [← hL, ← hR, h2]
  exact absurd (Option.some.inj this) (by decide)

theorem sha256Digest_pyStartsWith (msg : List Nat) :
    pyStartsWith (sha256Digest msg) "sha256:" = true := by
  unfold pyStartsWith sha256Digest
  rw [String.data_append]
  exact isPrefixOf_append_self _ _

/-- C3: if `PutManifest(name, tag, bytes)` returns digest `d`, then
`GetManifest(name, tag)` returns exactly `(bytes, d)` and
`GetManifest(name, d)` returns `(bytes, d)` — tag-link resolution hands
back the freshly written content and digest. -/
theorem put_get_manifest_tag_roundtrip (st : Store) (name tag : String)
    (content : List Nat) (htag : pyStartsWith tag "sha256:" = false) :
    get_manifest (put_manifest st name tag content).1 name tag =
      some (content, (put_manifest st name tag content).2) ∧
    get_manifest (put_manifest st name tag content).1 name
        (put_manifest st name tag content).2 =
      some (content, (put_manifest st name tag content).2) := by
  have hd : (put_manifest st name tag content).2 = sha256Digest content := rfl
  have hstore : (put_manifest st name tag content).1 =
      sput (sput st (revisionContentKey name (sha256Digest content)) content)
        (tagLinkKey name tag) (encodeStr (sha256Digest content)) := by
    simp [put_manifest, htag]
  have hrev : readRevision
      (sput (sput st (revisionContentKey name (sha256Digest content)) content)
        (tagLinkKey name tag) (encodeStr (sha256Digest content)))
      name (sha256Digest content) = some (content, sha256Digest content) := by
    unfold readRevision
    rw [sget_sput_ne _ _ _ _
        (Ne.symm (tagLinkKey_ne_revisionContentKey name tag (sha256Digest content))),
      sget_sput_same]
  have hlinkv : readTagLink
      (sput (sput st (revisionContentKey name (sha256Digest content)) content)
        (tagLinkKey name tag) (encodeStr (sha256Digest content)))
      name tag = some (sha256Digest content) := by
    unfold readTagLink
    rw [sget_sput_same]
    exact sha256Digest_decode content
  constructor
  · rw [hstore, hd]
    unfold get_manifest
    rw [if_pos (by simp [htag]), hlinkv]
    exact hrev
  · rw [hstore, hd]
    unfold get_manifest
    rw [if_neg (by simp [sha256Digest_pyStartsWith])]
    exact hrev

/-- C3 witness: concrete put of `{}` as `app:v1`, read back by tag and by
digest. -/
theorem put_get_manifest_tag_roundtrip_app :
    get_manifest (put_manifest Store.empty "app" "v1" [0x7b, 0x7d]).1 "app" "v1" =
      some ([0x7b, 0x7d], (put_manifest Store.empty "app" "v1" [0x7b, 0x7d]).2) ∧
    get_manifest (put_manifest Store.empty "app" "v1" [0x7b, 0x7d]).1 "app"
        (put_manifest Store.empty "app" "v1" [0x7b, 0x7d]).2 =
      some ([0x7b, 0x7d], (put_manifest Store.empty "app" "v1" [0x7b, 0x7d]).2) :=
  put_get_manifest_tag_roundtrip Store.empty "app" "v1" [0x7b, 0x7d] (by decide)

/-! ## C1 — write authentication on the registry surface -/

/-- A configuration with authentication enabled and anonymous pull allowed. -/
def cfgAuthAnon : Config :=
  { auth := { enabled := true, anonymousPull := true, jwtSecretKey := "change-me" },
    mutableTagPatterns := defaultMutableTagPatterns }

/-- C1 counterexample: with `auth.enabled = true` and
`auth.anonymous_pull = true`, a `PUT /v2/ns/img/manifests/v1` with NO
`Authorization` header succeeds with 201 — it is not rejected with 401 and
no `WWW-Authenticate` header is sent, because the registry blueprint is
registered without any `auth_required` decorator. -/
theorem put_manifest_unauthenticated_201 :
    (registry_put_manifest_request cfgAuthAnon "" Store.empty "ns/img" "v1"
        [0x7b, 0x7d]).2.status = 201 ∧
    ((registry_put_manifest_request cfgAuthAnon "" Store.empty "ns/img" "v1"
        [0x7b, 0x7d]).2.headers.all (fun p => p.1 != "WWW-Authenticate")) = true := by
  constructor
  · rfl
  · decide

/-- C1 amended: the registry manifest PUT route carries no auth decorator,
so with authentication enabled an unauthenticated PUT with a non-empty body
succeeds with 201 for every configuration and header; the `auth_required`
middleware (applied only to the Helm push/delete routes) would have
rejected a tokenless write with exactly 401 and
`WWW-Authenticate: Bearer realm="repo-worker",service="repo-worker"`. -/
theorem put_manifest_unprotected_vs_middleware
    (cfg : Config) (authHeader : String) (st : Store) (name reference : String)
    (body : List Nat) (basicDecode : String → Option String)
    (decodeTok : String → Option TokenPayload)
    (hen : cfg.auth.enabled = true) (hbody : body ≠ []) :
    (registry_put_manifest_request cfg authHeader st name reference body).2.status
        = 201 ∧
    auth_required false cfg "PUT" "" basicDecode decodeTok =
      AuthGate.reject
        (unauthorizedResponse "No valid authentication token provided") := by
  constructor
  · simp [registry_put_manifest_request, registry_put_manifest, hbody]
  · simp [auth_required, hen, extract_token_from_header]

/-- C1 amended witness: concrete config, no header, concrete body. -/
theorem put_manifest_unprotected_vs_middleware_app :
    (registry_put_manifest_request cfgAuthAnon "" Store.empty "ns/img" "v1"
        [0x30]).2.status = 201 ∧
    auth_required false cfgAuthAnon "PUT" "" (fun _ => none) (fun _ => none) =
      AuthGate.reject
        (unauthorizedResponse "No valid authentication token provided") :=
  put_manifest_unprotected_vs_middleware cfgAuthAnon "" Store.empty "ns/img" "v1"
    [0x30] (fun _ => none) (fun _ => none) (by decide) (by decide)

/-! ## C2 — proxied names are not dispatched to the cache controller -/

theorem ne_of_missing_root {name k : String} (suffix : String)
    (hk : (manifestsRoot name).data.isPrefixOf k.data = false) :
    k ≠ manifestsRoot name ++ suffix := by
  intro h
  subst h
  rw [String.data_append, isPrefixOf_append_self] at hk
  exact absurd hk (by decide)

/-- Writes to any key outside `repositories/<name>/_manifests/` — cache
metadata under `cache/...`, proxied cache content under
`repositories/_proxy/...`, blobs — do not change what
`S3Storage.get_manifest` returns for `name`. -/
theorem get_manifest_frame (st : Store) (name reference k : String)
    (v : List Nat)
    (hk : (manifestsRoot name).data.isPrefixOf k.data = false) :
    get_manifest (sput st k v) name reference = get_manifest st name reference := by
  have hlink : readTagLink (sput st k v) name reference =
      readTagLink st name reference := by
    have hne : tagLinkKey name reference ≠ k :=
      Ne.symm (ne_of_missing_root ("tags/" ++ (reference ++ "/link")) hk)
    unfold readTagLink
    rw [sget_sput_ne st k (tagLinkKey name reference) v hne]
  have hrev : ∀ d : String, readRevision (sput st k v) name d =
      readRevision st name d := by
    intro d
    have hne : revisionContentKey name d ≠ k :=
      Ne.symm (ne_of_missing_root ("revisions/" ++ (d ++ "/content")) hk)
    unfold readRevision
    rw [sget_sput_ne st k (revisionContentKey name d) v hne]
  unfold get_manifest
  by_cases href : pyStartsWith reference "sha256:" = true
  · rw [if_neg (by simp [href]), if_neg (by simp [href])]
    exact hrev reference
  · rw [if_pos (by simp at href ⊢; exact href), if_pos (by simp at href ⊢; exact href),
      hlink]
    cases readTagLink st name reference with
    | none => rfl
    | some digest => exact hrev digest

/-- C2 amended: the `GET /v2/<name>/manifests/<reference>` handler is a
direct lookup of the literal `name` in the local store; its response is
unchanged by any write outside that repository's `_manifests/` keyspace, so
the cache-controller state (cache metadata, `_proxy` content) can never
influence it. -/
theorem registry_get_manifest_frame (st : Store) (name reference k : String)
    (v : List Nat)
    (hk : (manifestsRoot name).data.isPrefixOf k.data = false) :
    registry_get_manifest (sput st k v) name reference =
      registry_get_manifest st name reference := by
  unfold registry_get_manifest
  rw [get_manifest_frame st name reference k v hk]

/-- C2 amended witness: a cache-metadata write does not change the (404)
response for the proxied-looking name. -/
theorem registry_get_manifest_frame_app :
    registry_get_manifest
        (sput Store.empty (cacheMetaKey "dockerhub" "library/alpine" "latest") [1])
        "dockerhub/library/alpine" "latest" =
      registry_get_manifest Store.empty "dockerhub/library/alpine" "latest" :=
  registry_get_manifest_frame Store.empty "dockerhub/library/alpine" "latest"
    (cacheMetaKey "dockerhub" "library/alpine" "latest") [1] (by decide)

/-- The digest of the one-byte manifest used in the C2 counterexample. -/
def dAlpine : String := sha256Digest [0x61]

/-- A store holding `library/alpine@dAlpine` in the PROXY cache (exactly
what `CacheManager.put_cached_manifest` writes) and nothing else. -/
def proxiedStore : Store :=
  put_cached_manifest defaultMutableTagPatterns 1000 Store.empty
    "dockerhub" "library/alpine" dAlpine [0x61] dAlpine

/-- C2 counterexample: `dockerhub/library/alpine` parses as a configured
upstream, and the cache controller holds the manifest — yet the route
answers 404, because it only consulted the local store under the literal
name. -/
theorem get_manifest_not_proxied :
    parse_proxy_request builtinUpstreamNames "dockerhub/library/alpine" =
      some ("dockerhub", "library/alpine") ∧
    get_cached_manifest proxiedStore "dockerhub" "library/alpine" dAlpine =
      some ([0x61], dAlpine) ∧
    (registry_get_manifest proxiedStore "dockerhub/library/alpine" dAlpine).status
      = 404 := by
  refine ⟨by decide, by decide, by decide⟩

/-! ## C4 — no digest verification on proxied digest fetches -/

theorem revisionContentKey_ne_cacheMetaKey (n d u i t : String) :
    revisionContentKey n d ≠ cacheMetaKey u i t := by
  intro h
  have h1 : (revisionContentKey n d).data.head? = some 'r' := rfl
  have h2 : (cacheMetaKey u i t).data.head? = some 'c' := rfl
  have : some 'r' = some 'c' := by rw [← h1, ← h2, h]
  exact absurd (Option.some.inj this) (by decide)

/-- C4 amended: on a cache miss for a digest reference, the proxy returns
whatever content and `Docker-Content-Digest` header the upstream produced,
with NO verification of the content against the requested digest, and it
stores the content keyed by the SHA-256 the storage layer computes from the
content itself (not by the requested digest). -/
theorem proxy_digest_unverified (patterns : List String) (now : Nat)
    (st : Store) (up img ref : String) (res : ManifestResult)
    (hmiss : get_cached_manifest st up img ref = none)
    (href : pyStartsWith ref "sha256:" = true) :
    (proxy_get_manifest_digest patterns now (some res) st up img ref).2 =
      some (res.content, res.digest) ∧
    sget (proxy_get_manifest_digest patterns now (some res) st up img ref).1
        (revisionContentKey ("_proxy/" ++ up ++ "/" ++ img)
          (sha256Digest res.content)) =
      some res.content := by
  unfold proxy_get_manifest_digest
  rw [hmiss]
  refine ⟨rfl, ?_⟩
  unfold put_cached_manifest put_cache_meta put_manifest
  simp only [href, Bool.not_eq_true, ite_false, if_neg, not_true_eq_false]
  rw [sget_sput_ne _ _ _ _ (revisionContentKey_ne_cacheMetaKey _ _ up img ref),
    sget_sput_same]

/-- Upstream answer used by the C4 counterexample and witness: the body is
the single byte `0x62`, whose SHA-256 is NOT the requested digest below,
and the reported header digest just echoes the request. -/
def lyingUpstream : ManifestResult :=
  { content := [0x62],
    digest := "sha256:aaaaaaaaaaaaaaaaaaaaaaaaaaaaaaaaaaaaaaaaaaaaaaaaaaaaaaaaaaaaaaaa",
    contentType := "application/vnd.oci.image.manifest.v1+json" }

/-- The digest the client asked for in the C4 counterexample. -/
def reqDigest : String :=
  "sha256:aaaaaaaaaaaaaaaaaaaaaaaaaaaaaaaaaaaaaaaaaaaaaaaaaaaaaaaaaaaaaaaa"

/-- C4 counterexample: the fetched content does NOT hash to the requested
digest, yet the proxy returns it to the client and stores it. -/
theorem proxy_digest_unverified_counterexample :
    sha256Digest [0x62] ≠ reqDigest ∧
    (proxy_get_manifest_digest defaultMutableTagPatterns 0 (some lyingUpstream)
        Store.empty "dockerhub" "library/alpine" reqDigest).2 =
      some ([0x62], reqDigest) ∧
    sget (proxy_get_manifest_digest defaultMutableTagPatterns 0 (some lyingUpstream)
        Store.empty "dockerhub" "library/alpine" reqDigest).1
        (revisionContentKey "_proxy/dockerhub/library/alpine"
          (sha256Digest [0x62])) =
      some [0x62] := by
  refine ⟨by decide, by decide, by decide⟩

/-- C4 amended witness: concrete cache miss against the empty store. -/
theorem proxy_digest_unverified_app :
    (proxy_get_manifest_digest defaultMutableTagPatterns 0 (some lyingUpstream)
        Store.empty "dockerhub" "library/alpine" reqDigest).2 =
      some (lyingUpstream.content, lyingUpstream.digest) ∧
    sget (proxy_get_manifest_digest defaultMutableTagPatterns 0 (some lyingUpstream)
        Store.empty "dockerhub" "library/alpine" reqDigest).1
        (revisionContentKey ("_proxy/" ++ "dockerhub" ++ "/" ++ "library/alpine")
          (sha256Digest lyingUpstream.content)) =
      some lyingUpstream.content :=
  proxy_digest_unverified defaultMutableTagPatterns 0 Store.empty
    "dockerhub" "library/alpine" reqDigest lyingUpstream (by decide) (by decide)

/-! ## C8 — chart upload/download round trip -/

theorem findIdx?_append_sep {l1 l2 : List Char} {sep : Char}
    (h : ∀ c ∈ l1, (c == sep) = false) :
    (l1 ++ sep :: l2).findIdx? (fun c => c == sep) = some l1.length := by
  induction l1 with
  | nil => simp [List.findIdx?_cons]
  | cons a rest ih =>
    have ha : (a == sep) = false := h a (by simp)
    have ih' := ih (fun c hc => h c (List.mem_cons_of_mem _ hc))
    simp [List.findIdx?_cons, ha, ih']

/-- Splitting `n ++ "-" ++ v` at the last hyphen recovers `(n, v)` exactly
when `v` is hyphen-free. -/
theorem rsplitOnce_append (n v : List Char) (hv : ¬ '-' ∈ v) :
    rsplitOnce (n ++ '-' :: v) '-' = some (n, v) := by
  have hrev : (n ++ '-' :: v).reverse = v.reverse ++ '-' :: n.reverse := by
    simp
  have hall : ∀ c ∈ v.reverse, (c == '-') = false := by
    intro c hc
    have : c ∈ v := List.mem_reverse.mp hc
    simp only [beq_eq_false_iff_ne, ne_eq]
    intro hcc
    exact hv (hcc ▸ this)
  have hfind : (n ++ '-' :: v).reverse.findIdx? (fun c => c == '-') =
      some v.length := by
    rw [hrev, findIdx?_append_sep hall, List.length_reverse]
  have hpos : (n ++ '-' :: v).length - 1 - v.length = n.length := by
    simp only [List.length_append, List.length_cons]
    omega
  have htake : (n ++ '-' :: v).take n.length = n := by
    rw [List.take_append_of_le_length (le_refl _), List.take_length]
  have hdrop : (n ++ '-' :: v).drop (n.length + 1) = v := by
    have hsplit : n ++ '-' :: v = (n ++ ['-']) ++ v := by simp
    have hl : (n ++ ['-']).length = n.length + 1 := by simp
    rw [hsplit, ← hl, List.drop_left]
  unfold rsplitOnce
  simp only [hfind, hpos, htake, hdrop]

theorem isSuffixOf_append (l t : List Char) :
    l.isSuffixOf (t ++ l) = true := by
  unfold List.isSuffixOf
  rw [List.reverse_append]
  exact isPrefixOf_append_self _ _

/-- C8 amended: for a chart whose `Chart.yaml` yields non-empty name `n`
and non-empty HYPHEN-FREE version `v`, an authorized upload stores the
bytes and `GET /charts/<n>-<v>.tgz` returns them with 200.  (For a version
containing a hyphen the download parses the filename at the wrong hyphen
and misses — see the counterexample.) -/
theorem chart_roundtrip_no_hyphen_version
    (metaOf : List Nat → Option ChartMeta) (cfg : Config) (authHeader : String)
    (basicDecode : String → Option String)
    (decodeTok : String → Option TokenPayload) (st : Store)
    (content : List Nat) (n v : String)
    (hgate : auth_required true cfg "POST" authHeader basicDecode decodeTok =
      AuthGate.proceed)
    (hmeta : metaOf content = some { name := some n, version := some v })
    (hn : n ≠ "") (hv : v ≠ "") (hnd : ¬ '-' ∈ v.data) :
    (upload_chart metaOf cfg authHeader basicDecode decodeTok st content).2.status
        = 201 ∧
    download_chart
        (upload_chart metaOf cfg authHeader basicDecode decodeTok st content).1
        (n ++ "-" ++ v ++ ".tgz") =
      { status := 200,
        headers := [("Content-Disposition",
                      "attachment; filename=\"" ++ (n ++ "-" ++ v ++ ".tgz") ++ "\""),
                    ("Content-Length", toString content.length)],
        body := content } := by
  have hup : upload_chart metaOf cfg authHeader basicDecode decodeTok st content =
      (put_chart st n v content,
       { status := 201, headers := [],
         body := encodeStr ("\x7b\"saved\": true, \"name\": \"" ++ n
           ++ "\", \"version\": \"" ++ v ++ "\"\x7d") }) := by
    unfold upload_chart
    rw [hgate, hmeta]
    simp [pyTruthyField, hn, hv]
  refine ⟨by rw [hup], ?_⟩
  rw [hup]
  unfold download_chart
  have hdata : (n ++ "-" ++ v ++ ".tgz").data =
      (n.data ++ '-' :: v.data) ++ ".tgz".data := by
    simp [String.data_append]
  have hends : pyEndsWith (n ++ "-" ++ v ++ ".tgz") ".tgz" = true := by
    unfold pyEndsWith
    rw [hdata]
    exact isSuffixOf_append _ _
  rw [if_neg (by simp [hends])]
  have h4 : (".tgz".data).length = 4 := rfl
  have hlen4 : (n ++ "-" ++ v ++ ".tgz").data.length - 4 =
      (n.data ++ '-' :: v.data).length := by
    rw [hdata]
    simp only [List.length_append, List.length_cons, h4]
    omega
  have htake : (n ++ "-" ++ v ++ ".tgz").data.take
      ((n ++ "-" ++ v ++ ".tgz").data.length - 4) = n.data ++ '-' :: v.data := by
    rw [hlen4, hdata, List.take_left]
  have hgetc : get_chart (put_chart st n v content)
      (String.mk n.data) (String.mk v.data) = some content := by
    rw [string_mk_data, string_mk_data]
    unfold get_chart put_chart
    exact sget_sput_same _ _ _
  simp only [htake, rsplitOnce_append n.data v.data hnd, hgetc]

/-- The metadata extractor used by the C8 counterexample and witness:
`Chart.yaml` of the 3-byte tarball parses to `foo` / `1.0.0-rc1`. -/
def metaOfRc : List Nat → Option ChartMeta := fun c =>
  if c = [1, 2, 3] then some { name := some "foo", version := some "1.0.0-rc1" }
  else none

/-- A configuration with authentication disabled. -/
def cfgNoAuth : Config :=
  { auth := { enabled := false, anonymousPull := true, jwtSecretKey := "" },
    mutableTagPatterns := defaultMutableTagPatterns }

/-- C8 counterexample: version `1.0.0-rc1` (hyphenated).  The upload
succeeds with 201 and stores `charts/foo/foo-1.0.0-rc1.tgz`, but
`GET /charts/foo-1.0.0-rc1.tgz` splits the filename at the LAST hyphen,
looks up chart `foo-1.0.0` version `rc1` (key
`charts/foo-1.0.0/foo-1.0.0-rc1.tgz`) and returns 404, not the bytes. -/
theorem chart_roundtrip_hyphen_version_fails :
    (upload_chart metaOfRc cfgNoAuth "" (fun _ => none) (fun _ => none)
        Store.empty [1, 2, 3]).2.status = 201 ∧
    (download_chart
        (upload_chart metaOfRc cfgNoAuth "" (fun _ => none) (fun _ => none)
          Store.empty [1, 2, 3]).1
        "foo-1.0.0-rc1.tgz").status = 404 := by
  refine ⟨by decide, by decide⟩

/-- The metadata extractor for the C8 witness (hyphen-free version). -/
def metaOfPlain : List Nat → Option ChartMeta := fun c =>
  if c = [1, 2, 3] then some { name := some "foo", version := some "1.0.0" }
  else none

/-- C8 amended witness: hyphen-free version `1.0.0` round-trips. -/
theorem chart_roundtrip_no_hyphen_version_app :
    (upload_chart metaOfPlain cfgNoAuth "" (fun _ => none) (fun _ => none)
        Store.empty [1, 2, 3]).2.status = 201 ∧
    download_chart
        (upload_chart metaOfPlain cfgNoAuth "" (fun _ => none) (fun _ => none)
          Store.empty [1, 2, 3]).1
        ("foo" ++ "-" ++ "1.0.0" ++ ".tgz") =
      { status := 200,
        headers := [("Content-Disposition",
                      "attachment; filename=\"" ++ ("foo" ++ "-" ++ "1.0.0" ++ ".tgz") ++ "\""),
                    ("Content-Length", toString (List.length [1, 2, 3]))],
        body := [1, 2, 3] } :=
  chart_roundtrip_no_hyphen_version metaOfPlain cfgNoAuth "" (fun _ => none)
    (fun _ => none) Store.empty [1, 2, 3] "foo" "1.0.0" (by decide) (by decide)
    (by decide) (by decide) (by decide)

/-! ## C6 — single-flight revalidation -/

theorem sfLookup_set_same (m : List (String × Nat)) (k : String) (v : Nat) :
    sfLookup (sfSet m k v) k = some v := by
  simp [sfLookup, sfSet, List.find?]

theorem find?_filter_of_imp {α : Type} (l : List α) (q f : α → Bool)
    (h : ∀ x, q x = true → f x = true) :
    (l.filter f).find? q = l.find? q := by
  induction l with
  | nil => rfl
  | cons a t ih =>
    by_cases hf : f a = true
    · by_cases hq : q a = true
      · simp [List.filter_cons, hf, List.find?, hq]
      · simp only [List.filter_cons, hf, if_true]
        simp [List.find?, hq, ih]
    · have hq : q a = false := by
        cases hqa : q a with
        | false => rfl
        | true => exact absurd (h a hqa) hf
      simp only [List.filter_cons, hf, if_false]
      simp [List.find?, hq, ih]

theorem sfLookup_set_ne (m : List (String × Nat)) (k k' : String) (v : Nat)
    (h : k' ≠ k) : sfLookup (sfSet m k v) k' = sfLookup m k' := by
  have hb : (k == k') = false := by
    simp [beq_eq_false_iff_ne]
    exact Ne.symm h
  unfold sfLookup sfSet sfErase
  rw [List.find?]
  simp only [hb]
  rw [find?_filter_of_imp]
  intro x hx
  simp only [beq_iff_eq] at hx
  simp [bne_iff_ne, hx, h]

theorem sfLookup_erase_same (m : List (String × Nat)) (k : String) :
    sfLookup (sfErase m k) k = none := by
  unfold sfLookup sfErase
  rw [List.find?_eq_none.mpr]
  · rfl
  · intro x hx
    have := List.of_mem_filter hx
    simp only [bne_iff_ne, ne_eq] at this
    simp [this]

theorem sfLookup_erase_ne (m : List (String × Nat)) (k k' : String)
    (h : k' ≠ k) : sfLookup (sfErase m k) k' = sfLookup m k' := by
  unfold sfLookup sfErase
  rw [find?_filter_of_imp]
  intro x hx
  simp only [beq_iff_eq] at hx
  simp [bne_iff_ne, hx, h]

theorem mem_of_taskFind {ts : List SFTask} {tid : Nat} {t : SFTask}
    (h : taskFind ts tid = some t) : t ∈ ts ∧ t.id = tid := by
  refine ⟨List.mem_of_find?_eq_some h, ?_⟩
  have := List.find?_some h
  simpa using this

theorem taskFind_eq_of_mem {ts : List SFTask} {t : SFTask}
    (hmem : t ∈ ts) (hnodup : (ts.map SFTask.id).Nodup) :
    taskFind ts t.id = some t := by
  induction ts with
  | nil => cases hmem
  | cons a rest ih =>
    rw [List.map_cons, List.nodup_cons] at hnodup
    rcases List.mem_cons.mp hmem with rfl | hrest
    · simp [taskFind, List.find?]
    · have hne : (a.id == t.id) = false := by
        simp only [beq_eq_false_iff_ne, ne_eq]
        intro he
        exact hnodup.1 (he ▸ List.mem_map_of_mem SFTask.id hrest)
      unfold taskFind
      rw [List.find?]
      simp only [hne]
      exact ih hrest hnodup.2

/-- The inductive invariant of the revalidation subsystem: task ids are
bounded by the id counter and pairwise distinct, and every live task is the
one registered in the in-flight map under its key. -/
def SFInv (st : SFState) : Prop :=
  (∀ t ∈ st.tasks, t.id < st.nextId) ∧
  (st.tasks.map SFTask.id).Nodup ∧
  (∀ t ∈ st.tasks, t.done = false → sfLookup st.inflight t.key = some t.id)

theorem sfInv_init : SFInv sfInit := by
  refine ⟨?_, ?_, ?_⟩ <;> simp [sfInit]

theorem sfInv_start (st : SFState) (key : String) (h : SFInv st) :
    SFInv (start_revalidation st key) := by
  unfold start_revalidation
  by_cases hr : is_revalidating st key = true
  · rw [if_pos hr]; exact h
  · rw [if_neg hr]
    obtain ⟨hbound, hnodup, hreg⟩ := h
    refine ⟨?_, ?_, ?_⟩
    · intro t ht
      rcases List.mem_append.mp ht with hold | hnew
      · exact Nat.lt_succ_of_lt (hbound t hold)
      · simp only [List.mem_singleton] at hnew
        subst hnew
        exact Nat.lt_succ_self _
    · rw [List.map_append, List.map_singleton]
      rw [List.nodup_append]
      refine ⟨hnodup, List.nodup_singleton _, ?_⟩
      intro a ha hb
      simp only [List.mem_singleton] at hb
      subst hb
      rcases List.mem_map.mp ha with ⟨u, hu, hui⟩
      exact absurd (hui ▸ hbound u hu) (lt_irrefl _)
    · intro t ht htd
      rcases List.mem_append.mp ht with hold | hnew
      · by_cases hkey : t.key = key
        · exfalso
          apply hr
          have hlook := hreg t hold htd
          rw [hkey] at hlook
          unfold is_revalidating
          rw [hlook]
          show (match taskFind st.tasks t.id with
                | some u => ! u.done
                | none => false) = true
          rw [taskFind_eq_of_mem hold hnodup]
          show (! t.done) = true
          rw [htd]
          rfl
        · simp only []
          rw [sfLookup_set_ne _ _ _ _ hkey]
          exact hreg t hold htd
      · simp only [List.mem_singleton] at hnew
        subst hnew
        exact sfLookup_set_same _ _ _

theorem sfInv_handle (st : SFState) (key : String) (h : SFInv st) :
    SFInv (handle_request st key) := by
  unfold handle_request
  by_cases hr : is_revalidating st key = true
  · rw [if_pos hr]; exact h
  · rw [if_neg hr]; exact sfInv_start st key h

theorem complete_task_missing (st : SFState) (tid : Nat)
    (hf : taskFind st.tasks tid = none) : complete_task st tid = st := by
  unfold complete_task
  rw [hf]

theorem complete_task_stale (st : SFState) (tid : Nat) (t : SFTask)
    (hf : taskFind st.tasks tid = some t) (hd : t.done = true) :
    complete_task st tid = st := by
  unfold complete_task
  rw [hf]
  show (if t.done = true then st else sfMarkDone st tid t.key) = st
  rw [if_pos hd]

theorem complete_task_live (st : SFState) (tid : Nat) (t : SFTask)
    (hf : taskFind st.tasks tid = some t) (hd : t.done = false) :
    complete_task st tid = sfMarkDone st tid t.key := by
  unfold complete_task
  rw [hf]
  show (if t.done = true then st else sfMarkDone st tid t.key) =
    sfMarkDone st tid t.key
  rw [if_neg (by rw [hd]; exact Bool.false_ne_true)]

theorem sfInv_complete (st : SFState) (tid : Nat) (h : SFInv st) :
    SFInv (complete_task st tid) := by
  cases hf : taskFind st.tasks tid with
  | none => rw [complete_task_missing st tid hf]; exact h
  | some t =>
    by_cases hdone : t.done = true
    · rw [complete_task_stale st tid t hf hdone]
      exact h
    · have hdf : t.done = false := by
        cases hdt : t.done with
        | false => rfl
        | true => exact absurd hdt hdone
      rw [complete_task_live st tid t hf hdf]
      unfold sfMarkDone
      obtain ⟨htmem, htid⟩ := mem_of_taskFind hf
      obtain ⟨hbound, hnodup, hreg⟩ := h
      have hid : ∀ u : SFTask,
          (if u.id == tid then { u with done := true } else u).id = u.id := by
        intro u
        by_cases hu : (u.id == tid) = true <;> simp [hu]
      have hmapid : (st.tasks.map
            (fun u => if u.id == tid then { u with done := true } else u)).map
            SFTask.id = st.tasks.map SFTask.id := by
        rw [List.map_map]
        exact List.map_congr_left (fun u _ => hid u)
      refine ⟨?_, ?_, ?_⟩
      · intro u' hu'
        rcases List.mem_map.mp hu' with ⟨u, hu, rfl⟩
        rw [hid u]
        exact hbound u hu
      · rw [hmapid]
        exact hnodup
      · intro u' hu' hud
        rcases List.mem_map.mp hu' with ⟨u, hu, rfl⟩
        by_cases huid : (u.id == tid) = true
        · exfalso
          simp only [huid, if_true] at hud
          exact absurd hud (by decide)
        · have huidf : (u.id == tid) = false := by
            cases hb : (u.id == tid) with
            | false => rfl
            | true => exact absurd hb huid
          simp only [huidf, Bool.false_eq_true, if_false] at hud ⊢
          have hureg := hreg u hu hud
          by_cases hukey : u.key = t.key
          · exfalso
            have htreg := hreg t htmem hdf
            rw [hukey, htreg] at hureg
            have hidteq : u.id = t.id := (Option.some.inj hureg).symm
            rw [htid] at hidteq
            simp [hidteq] at huidf
          · rw [sfLookup_erase_ne _ _ _ hukey]
            exact hureg

theorem sfInv_reachable {st : SFState} (h : SFReachable st) : SFInv st := by
  induction h with
  | init => exact sfInv_init
  | step _ hstep ih =>
    cases hstep with
    | request key => exact sfInv_handle _ key ih
    | complete tid => exact sfInv_complete _ tid ih

theorem length_le_one_of_nodup_allEq {l : List Nat} (hn : l.Nodup)
    (ha : ∀ a ∈ l, ∀ b ∈ l, a = b) : l.length ≤ 1 := by
  match l with
  | [] => simp
  | [a] => simp
  | a :: b :: rest =>
    exfalso
    have hab : a = b := ha a (by simp) b (by simp)
    rw [List.nodup_cons] at hn
    exact hn.1 (hab ▸ List.mem_cons_self b rest)

theorem inFlightCount_le_one_of_inv (st : SFState) (key : String)
    (h : SFInv st) : inFlightCount st key ≤ 1 := by
  obtain ⟨_, hnodup, hreg⟩ := h
  unfold inFlightCount
  have hlen : (st.tasks.filter (fun t => t.key == key && ! t.done)).length =
      ((st.tasks.filter (fun t => t.key == key && ! t.done)).map
        SFTask.id).length := by
    rw [List.length_map]
  rw [hlen]
  apply length_le_one_of_nodup_allEq
  · exact hnodup.sublist ((List.filter_sublist _).map SFTask.id)
  · intro a ha b hb
    rcases List.mem_map.mp ha with ⟨u, hu, rfl⟩
    rcases List.mem_map.mp hb with ⟨w, hw, rfl⟩
    have hum := List.mem_of_mem_filter hu
    have hwm := List.mem_of_mem_filter hw
    have hup := List.of_mem_filter hu
    have hwp := List.of_mem_filter hw
    simp only [Bool.and_eq_true, beq_iff_eq, Bool.not_eq_true'] at hup hwp
    have h1 := hreg u hum hup.2
    have h2 := hreg w hwm hwp.2
    rw [hup.1] at h1
    rw [hwp.1] at h2
    rw [h1] at h2
    exact Option.some.inj h2

/-- C6: in every reachable state of the revalidation subsystem, (i) at most
one live background refresh task exists per (upstream, image, tag) cache
key, (ii) a request arriving while a refresh is in flight leaves the state
unchanged (the duplicate is silently dropped), and (iii) completing a live
task — the `finally` cleanup runs on success and on caught failure alike —
removes its in-flight map entry. -/
theorem single_flight (st : SFState) (h : SFReachable st) (key : String)
    (tid : Nat) (t : SFTask) :
    inFlightCount st key ≤ 1 ∧
    (is_revalidating st key = true → handle_request st key = st) ∧
    (taskFind st.tasks tid = some t → t.done = false →
      sfLookup (complete_task st tid).inflight t.key = none) := by
  refine ⟨inFlightCount_le_one_of_inv st key (sfInv_reachable h), ?_, ?_⟩
  · intro hr
    unfold handle_request
    rw [if_pos hr]
  · intro hf hd
    rw [complete_task_live st tid t hf hd]
    exact sfLookup_erase_same _ _

/-- A concrete reachable state for the C6 witness: one request created task
0 for `dockerhub/library/nginx:latest`, a duplicate request was dropped. -/
def sfStateEx : SFState :=
  handle_request (handle_request sfInit "dockerhub/library/nginx:latest")
    "dockerhub/library/nginx:latest"

/-- C6 witness: the invariant instantiated at the concrete two-request
state and the concrete live task. -/
theorem single_flight_app :
    inFlightCount sfStateEx "dockerhub/library/nginx:latest" ≤ 1 ∧
    (is_revalidating sfStateEx "dockerhub/library/nginx:latest" = true →
      handle_request sfStateEx "dockerhub/library/nginx:latest" = sfStateEx) ∧
    (taskFind sfStateEx.tasks 0 =
        some { id := 0, key := "dockerhub/library/nginx:latest", done := false } →
      ({ id := 0, key := "dockerhub/library/nginx:latest",
         done := false } : SFTask).done = false →
      sfLookup (complete_task sfStateEx 0).inflight
        "dockerhub/library/nginx:latest" = none) :=
  single_flight sfStateEx
    (SFReachable.step
      (SFReachable.step SFReachable.init
        (SFStep.request sfInit "dockerhub/library/nginx:latest"))
      (SFStep.request (handle_request sfInit "dockerhub/library/nginx:latest")
        "dockerhub/library/nginx:latest"))
    "dockerhub/library/nginx:latest" 0
    { id := 0, key := "dockerhub/library/nginx:latest", done := false }

end RepoWorker
